import Mathlib

/-!
Verification of the Navigation Route Engine of `src/main.py`:
the waypoint catalog, the location graph, the shortest-path planner
(`compute_route`, which calls networkx `shortest_path` over an unweighted
graph), and the navigation session driven by `main`'s scan/voice loops.

Python dictionaries are embedded as association lists, the networkx
`DiGraph` as a node list plus an adjacency-pair list, and functions that
can raise as `Except`-valued functions (an `Except.error` models an
exception escaping the function uncaught).
-/

namespace GPSNav

/-- The waypoint catalog of `define_qr_locations` (src/main.py:225-266):
QR code → display name, embedded as an association list in source order. -/
def define_qr_locations : List (String × String) :=
  [("A1", "Room 515"), ("A2", "MTech Lab 514"), ("A3", "Staff Room Door 1"),
   ("A4", "Staff Room Door 3"), ("A5", "Room 511"), ("A6", "Washroom"),
   ("A7", "Stairs"), ("A8", "Room 510"), ("A9", "Micro Lab 508"),
   ("A10", "Circuits Lab 506"), ("A11", "EC Core Staff Room"), ("A12", "Lift"),
   ("A13", "Sdpk"), ("A14", "Room 503"), ("A15", "Stairs EB"),
   ("B1", "Intermediate Code 1"), ("B2", "Intermediate Code 2"),
   ("B3", "Intermediate Code 3"), ("B4", "Intermediate Code 4"),
   ("B5", "Intermediate Code 5"), ("B6", "Intermediate Code 6"),
   ("B7", "Intermediate Code 7"), ("B8", "Intermediate Code 8"),
   ("B9", "Intermediate Code 9"), ("B10", "Intermediate Code 10"),
   ("B11", "Intermediate Code 11"), ("B12", "Intermediate Code 12"),
   ("B13", "Intermediate Code 13"), ("B14", "Intermediate Code 14")]

/-- Python `qr_data[c]` read access on the catalog dictionary (first
binding wins, as dictionary keys are unique). -/
def qr_lookup (qr : List (String × String)) (c : String) : Option String :=
  (qr.find? (fun kv => kv.1 == c)).map (fun kv => kv.2)

/-- Python `c in qr_data` key-membership test on the catalog dictionary. -/
def containsKey (qr : List (String × String)) (c : String) : Bool :=
  (qr.find? (fun kv => kv.1 == c)).isSome

/-- The networkx `DiGraph` as used by `main.py`: a node list and a list of
directed adjacency pairs (duplicate entries are harmless because adjacency
is membership, matching networkx's idempotent edge insertion). -/
structure Graph where
  nodes : List String
  adj : List (String × String)

/-- The hardcoded walkable-path edge list of `build_graph`
(src/main.py:284-291), before the bidirectional doubling. -/
def nav_edges : List (String × String) :=
  [("A1", "A2"), ("A2", "B1"), ("B1", "A3"), ("A3", "B2"), ("B2", "B3"),
   ("B3", "B4"), ("B4", "B5"), ("B5", "A4"), ("A4", "A5"), ("A5", "B6"),
   ("B6", "A6"), ("A6", "A7"), ("A7", "A8"), ("A8", "A9"), ("A9", "B7"),
   ("B7", "A10"), ("A10", "B8"), ("B8", "B9"), ("B9", "A11"), ("A11", "B10"),
   ("B10", "B11"), ("B11", "B12"), ("B12", "A13"), ("A13", "A14"), ("A14", "B13"),
   ("B13", "A15"), ("A15", "B14"), ("B14", "A1"), ("A11", "A12")]

/-- `build_graph` (src/main.py:268-295) with the edge list as a parameter
(the spec treats the edge list as injectable configuration): nodes are the
catalog keys plus every endpoint of an inserted edge (networkx
`add_edges_from` adds missing endpoints as nodes), and the adjacency list
is the input doubled with the swapped pairs (`edges += [(v, u) ...]`). -/
def build_graph_with (qr_keys : List String) (edges : List (String × String)) : Graph :=
  let alledges := edges ++ edges.map (fun e => (e.2, e.1))
  { nodes := qr_keys ++ alledges.flatMap (fun e => [e.1, e.2])
    adj := alledges }

/-- `build_graph(qr_data)` exactly as in the source: catalog keys as nodes
and the hardcoded `nav_edges` list. -/
def build_graph (qr : List (String × String)) : Graph :=
  build_graph_with (qr.map (fun kv => kv.1)) nav_edges

/-- The graph `main` builds at startup (src/main.py:414). -/
def nav_graph : Graph := build_graph define_qr_locations

/-- Adjacency of the built graph: `(u, v)` is an inserted directed pair. -/
def Graph.Adj (g : Graph) (u v : String) : Prop := (u, v) ∈ g.adj

instance (g : Graph) : DecidableRel g.Adj :=
  fun u v => inferInstanceAs (Decidable ((u, v) ∈ g.adj))

/-- networkx `G.neighbors(u)` (successors of `u` in the DiGraph). -/
def Graph.neighbors (g : Graph) (u : String) : List String :=
  (g.adj.filter (fun e => e.1 == u)).map (fun e => e.2)

/-- Python `str.strip()`: remove whitespace from both ends. Written over
the character list so that concrete inputs evaluate inside proofs. -/
def py_strip (s : String) : String :=
  String.mk (((s.data.dropWhile Char.isWhitespace).reverse.dropWhile
    Char.isWhitespace).reverse)

/-- Python `str.upper()` on the ASCII codes used here. -/
def py_upper (s : String) : String := String.mk (s.data.map Char.toUpper)

/-- `detect_qr_code` (src/main.py:297-311) applied to the text decoded by
the cv2 detector: the empty string is a failed decode (`if data:` is a
truthiness test), otherwise the decoded text is stripped — note there is
no case normalization here. -/
def detect_qr_code (data : String) : Option String :=
  if data == "" then none else some (py_strip data)

/-- The normalization `get_destination_voice` (src/main.py:332-363) applies
to the recognized text before returning it: `command.strip().upper()`. -/
def voice_normalize (command : String) : String := py_upper (py_strip command)

/-- Decidability of consecutive adjacency, by structural recursion so that
`decide` can evaluate it on concrete walks. -/
instance instChainAdjDec (g : Graph) : ∀ l : List String, Decidable (List.Chain' g.Adj l)
  | [] => isTrue List.chain'_nil
  | [a] => isTrue (List.chain'_singleton a)
  | u :: v :: rest =>
    haveI := instChainAdjDec g (v :: rest)
    decidable_of_iff (g.Adj u v ∧ List.Chain' g.Adj (v :: rest)) List.chain'_cons.symm

/-- A walk in the graph: nonempty, starts at `s`, ends at `t`, and each
consecutive pair is adjacent. Its edge count is `p.length - 1`. -/
def Graph.IsWalkFrom (g : Graph) (s t : String) (p : List String) : Prop :=
  p.head? = some s ∧ p.getLast? = some t ∧ List.Chain' g.Adj p

instance (g : Graph) (s t : String) (p : List String) : Decidable (g.IsWalkFrom s t p) :=
  inferInstanceAs (Decidable (p.head? = some s ∧ p.getLast? = some t ∧ List.Chain' g.Adj p))

/-- One breadth-first extension step: grow every reversed walk (current
node at the head) by one neighbor of its current node. -/
def extendWalks (g : Graph) (ps : List (List String)) : List (List String) :=
  ps.flatMap (fun p =>
    match p with
    | [] => []
    | c :: _ => (g.neighbors c).map (fun v => v :: p))

/-- All reversed walks out of `s` with exactly `n` edges (current node at
the head, `s` at the tail end). -/
def walksRev (g : Graph) (s : String) : Nat → List (List String)
  | 0 => [[s]]
  | n + 1 => extendWalks g (walksRev g s n)

/-- Layered breadth-first search: try edge counts `n, n+1, ...` for `fuel`
rounds and return the first (hence minimum-edge) walk reaching `t`,
forward-ordered. This realizes the contract of networkx
`bidirectional_shortest_path`: a path with minimum edge count, with
arbitrary tie-breaking. -/
def routeAux (g : Graph) (s t : String) : Nat → Nat → Option (List String)
  | _, 0 => none
  | n, fuel + 1 =>
    match (walksRev g s n).find? (fun p => p.head? == some t) with
    | some p => some p.reverse
    | none => routeAux g s t (n + 1) fuel

/-- The exceptions networkx `shortest_path` can raise here: `NodeNotFound`
when source or target is not in the graph, `NetworkXNoPath` when no path
exists. -/
inductive NxError where
  | nodeNotFound
  | noPath
deriving DecidableEq

/-- networkx `nx.shortest_path(graph, source, target)` with the default
unweighted method: raises `NodeNotFound` if either endpoint is missing,
otherwise returns a minimum-edge path or raises `NetworkXNoPath`. A walk
with fewer than `|nodes|` edges suffices whenever any path exists. -/
def nx_shortest_path (g : Graph) (s t : String) : Except NxError (List String) :=
  if s ∈ g.nodes ∧ t ∈ g.nodes then
    match routeAux g s t 0 g.nodes.length with
    | some r => Except.ok r
    | none => Except.error NxError.noPath
  else
    Except.error NxError.nodeNotFound

/-- `compute_route` (src/main.py:313-330): calls `nx.shortest_path` in a
`try` block whose `except` clause catches only `nx.NetworkXNoPath`
(returning Python `None`, embedded `Except.ok none`). A `NodeNotFound`
exception is not caught and propagates out (`Except.error`). -/
def compute_route (g : Graph) (s t : String) : Except NxError (Option (List String)) :=
  match nx_shortest_path g s t with
  | Except.ok r => Except.ok (some r)
  | Except.error NxError.noPath => Except.ok none
  | Except.error e => Except.error e

/-! ### Navigation session state machine

`main` (src/main.py:376-467) is a sequence of loops; each loop body
consumes one external input and updates the session. We embed it as a
state machine whose states are `main`'s program points:

* `awaitingStart` — the scan loop at src/main.py:419-424;
* `awaitingDestination loc` — the voice loop at src/main.py:428-433
  (after `current_location = loc` was recorded), followed immediately on a
  valid destination by route planning (src/main.py:436-444, the spec's
  transient `RoutePlanned`);
* `navigating loc dest route idx` — the scan loop at src/main.py:447-463;
* `arrived` — after the `break` at src/main.py:456 (terminal);
* `aborted` — after the `return` at src/main.py:440 (terminal);
* `crashed` — an uncaught exception killed the process (terminal; no
  further line of `main` runs).

Each `speak`ed guidance message is recorded as the spec's corresponding
directive. -/

/-- The guidance directives, one per `speak` call of the session:
`startConfirmed name` is "Starting location detected: {name}" (line 424),
`invalidDestination` is "Invalid destination code..." (line 433),
`recognitionRetry` is the retry prompt spoken inside
`get_destination_voice` on a recognition failure (lines 360-362),
`routeAnnounced codes` is "Route found: ..." (line 442),
`navigationAborted` is "No path found..." (line 438),
`arrivedAtWaypoint name` is "You are at {name}." (line 452),
`destinationReached` is "You have reached your destination..." (line 454),
`nextWaypointHint name` is "Next, please take 10 steps forward to {name}."
(line 460), and `unexpectedWaypoint` is "This is not the expected QR
code..." (line 462). -/
inductive Directive where
  | startConfirmed (name : String)
  | invalidDestination
  | recognitionRetry
  | routeAnnounced (codes : List String)
  | navigationAborted
  | arrivedAtWaypoint (name : String)
  | nextWaypointHint (name : String)
  | unexpectedWaypoint
  | destinationReached
deriving DecidableEq

/-- External inputs: `scan data` carries the raw text decoded from a
camera frame (empty when nothing decoded), `voiceResult text` the raw
recognized speech, `voiceFailure` a recognition failure
(`sr.UnknownValueError` / `sr.RequestError`). -/
inductive Event where
  | scan (data : String)
  | voiceResult (text : String)
  | voiceFailure
deriving DecidableEq

inductive SessionState where
  | awaitingStart
  | awaitingDestination (loc : String)
  | navigating (loc dest : String) (route : List String) (idx : Nat)
  | arrived (loc dest : String) (route : List String) (idx : Nat)
  | aborted (loc dest : String)
  | crashed (loc dest : String)
deriving DecidableEq

/-- The guard `if code and code in qr_data` applied to a scanned frame
(src/main.py:422 and 450): the decoded-and-stripped text, provided it is
nonempty and a catalog key. -/
def scan_accept (qr : List (String × String)) (data : String) : Option String :=
  match detect_qr_code data with
  | none => none
  | some c => if c != "" && containsKey qr c then some c else none

/-- Route planning on a confirmed destination (src/main.py:436-444):
compute the route; on Python `None` (or an empty route, `if not route:`)
speak the abort message and end the session; on success announce the
route and start navigating at index 0; an escaping exception kills the
process. -/
def plan_destination (g : Graph) (loc c : String) :
    SessionState × List Directive :=
  match compute_route g loc c with
  | Except.error _ => (SessionState.crashed loc c, [])
  | Except.ok none => (SessionState.aborted loc c, [Directive.navigationAborted])
  | Except.ok (some r) =>
    if r.isEmpty then (SessionState.aborted loc c, [Directive.navigationAborted])
    else (SessionState.navigating loc c r 0, [Directive.routeAnnounced r])

/-- One event consumed by the session, following `main`'s loop bodies.
Events a loop does not read (voice while scanning, scans while listening)
are ignored, and terminal states ignore everything. -/
def step (qr : List (String × String)) (g : Graph) :
    SessionState → Event → SessionState × List Directive
  | SessionState.awaitingStart, Event.scan data =>
    (match scan_accept qr data with
     | some c =>
       (SessionState.awaitingDestination c,
        [Directive.startConfirmed ((qr_lookup qr c).getD "")])
     | none => (SessionState.awaitingStart, []))
  | SessionState.awaitingStart, _ => (SessionState.awaitingStart, [])
  | SessionState.awaitingDestination loc, Event.voiceResult text =>
    let c := voice_normalize text
    if c != "" && containsKey qr c then plan_destination g loc c
    else (SessionState.awaitingDestination loc, [Directive.invalidDestination])
  | SessionState.awaitingDestination loc, Event.voiceFailure =>
    (SessionState.awaitingDestination loc,
     [Directive.recognitionRetry, Directive.invalidDestination])
  | SessionState.awaitingDestination loc, _ =>
    (SessionState.awaitingDestination loc, [])
  | SessionState.navigating loc dest r i, Event.scan data =>
    (match scan_accept qr data with
     | some c =>
       if i < r.length then
         if c == r.getD i "" then
           if i == r.length - 1 then
             (SessionState.arrived loc dest r i,
              [Directive.arrivedAtWaypoint ((qr_lookup qr c).getD ""),
               Directive.destinationReached])
           else
             match qr_lookup qr (r.getD (i + 1) "") with
             | some nm =>
               (SessionState.navigating loc dest r (i + 1),
                [Directive.arrivedAtWaypoint ((qr_lookup qr c).getD ""),
                 Directive.nextWaypointHint nm])
             | none =>
               (SessionState.crashed loc dest,
                [Directive.arrivedAtWaypoint ((qr_lookup qr c).getD "")])
         else (SessionState.navigating loc dest r i, [Directive.unexpectedWaypoint])
       else (SessionState.crashed loc dest, [])
     | none => (SessionState.navigating loc dest r i, []))
  | SessionState.navigating loc dest r i, _ =>
    (SessionState.navigating loc dest r i, [])
  | SessionState.arrived l d r i, _ => (SessionState.arrived l d r i, [])
  | SessionState.aborted l d, _ => (SessionState.aborted l d, [])
  | SessionState.crashed l d, _ => (SessionState.crashed l d, [])

/-- The session state after `main` consumes a list of events, starting
from the initial prompt-for-start state. -/
def runEvents (qr : List (String × String)) (g : Graph) (es : List Event) : SessionState :=
  es.foldl (fun st e => (step qr g st e).1) SessionState.awaitingStart

/-- The session's recorded start location, once set. -/
def SessionState.location? : SessionState → Option String
  | SessionState.awaitingStart => none
  | SessionState.awaitingDestination l => some l
  | SessionState.navigating l _ _ _ => some l
  | SessionState.arrived l _ _ _ => some l
  | SessionState.aborted l _ => some l
  | SessionState.crashed l _ => some l

/-- The session's recorded destination, once set. -/
def SessionState.destination? : SessionState → Option String
  | SessionState.navigating _ d _ _ => some d
  | SessionState.arrived _ d _ _ => some d
  | SessionState.aborted _ d => some d
  | SessionState.crashed _ d => some d
  | _ => none

/-- The session's stored route, once planned. -/
def SessionState.route? : SessionState → Option (List String)
  | SessionState.navigating _ _ r _ => some r
  | SessionState.arrived _ _ r _ => some r
  | _ => none

/-- `routeIndex` is a valid index into the stored route. -/
def idxOk : SessionState → Prop
  | SessionState.navigating _ _ r i => i < r.length
  | SessionState.arrived _ _ r i => i < r.length
  | _ => True

/-! ### Graph lemmas -/

theorem mem_neighbors (g : Graph) (u v : String) :
    v ∈ g.neighbors u ↔ g.Adj u v := by
  simp only [Graph.neighbors, List.mem_map, List.mem_filter, beq_iff_eq, Graph.Adj]
  constructor
  · rintro ⟨⟨a, b⟩, ⟨hmem, h1⟩, h2⟩
    simp only at h1 h2
    subst h1; subst h2; exact hmem
  · intro h
    exact ⟨(u, v), ⟨h, rfl⟩, rfl⟩

theorem build_graph_with_adj (keys : List String) (edges : List (String × String))
    (u v : String) :
    (build_graph_with keys edges).Adj u v ↔ (u, v) ∈ edges ∨ (v, u) ∈ edges := by
  simp only [build_graph_with, Graph.Adj, List.mem_append, List.mem_map]
  constructor
  · rintro (h | ⟨⟨a, b⟩, hmem, heq⟩)
    · exact Or.inl h
    · refine Or.inr ?_
      have h1 : b = u := congrArg Prod.fst heq
      have h2 : a = v := congrArg Prod.snd heq
      subst h1; subst h2; exact hmem
  · rintro (h | h)
    · exact Or.inl h
    · exact Or.inr ⟨(v, u), h, rfl⟩

/-- Every endpoint of an adjacency of a built graph is a node (networkx
`add_edges_from` inserts missing endpoints). -/
theorem adj_mem_nodes (keys : List String) (edges : List (String × String))
    {u v : String} (h : (build_graph_with keys edges).Adj u v) :
    u ∈ (build_graph_with keys edges).nodes ∧ v ∈ (build_graph_with keys edges).nodes := by
  simp only [build_graph_with, Graph.Adj, List.mem_append] at h
  simp only [build_graph_with, List.mem_append, List.mem_flatMap]
  exact ⟨Or.inr ⟨(u, v), h, by simp⟩, Or.inr ⟨(u, v), h, by simp⟩⟩

/-- C2 — For every edge list given to the graph builder, the adjacency
relation of the resulting graph is symmetric (`v ∈ neighbors u ↔
u ∈ neighbors v`), and every catalog code is a node of the graph even
when no edge touches it. -/
theorem build_graph_symmetric (keys : List String) (edges : List (String × String))
    (u v : String) :
    (v ∈ (build_graph_with keys edges).neighbors u ↔
      u ∈ (build_graph_with keys edges).neighbors v) ∧
    (∀ k ∈ keys, k ∈ (build_graph_with keys edges).nodes) := by
  constructor
  · rw [mem_neighbors, mem_neighbors, build_graph_with_adj, build_graph_with_adj]
    exact Or.comm
  · intro k hk
    simp only [build_graph_with, List.mem_append]
    exact Or.inl hk

/-- C2 witness: in the graph built from catalog keys `A1, Z9` and the single
edge `(A1, A2)`, `A2 ∈ neighbors A1 ↔ A1 ∈ neighbors A2`, and the isolated
catalog code `Z9` is a node. -/
theorem build_graph_symmetric_witness :
    ("A2" ∈ (build_graph_with ["A1", "Z9"] [("A1", "A2")]).neighbors "A1" ↔
      "A1" ∈ (build_graph_with ["A1", "Z9"] [("A1", "A2")]).neighbors "A2") ∧
    "Z9" ∈ (build_graph_with ["A1", "Z9"] [("A1", "A2")]).nodes :=
  ⟨(build_graph_symmetric ["A1", "Z9"] [("A1", "A2")] "A1" "A2").1,
   (build_graph_symmetric ["A1", "Z9"] [("A1", "A2")] "A1" "A2").2 "Z9" (by decide)⟩

/-! ### Walk lemmas -/

theorem walk_mem_nodes (g : Graph)
    (hE : ∀ u v, g.Adj u v → u ∈ g.nodes ∧ v ∈ g.nodes) :
    ∀ p : List String, List.Chain' g.Adj p →
      (∀ s, p.head? = some s → s ∈ g.nodes) →
      ∀ x ∈ p, x ∈ g.nodes := by
  intro p
  induction p with
  | nil => intro _ _ x hx; simp at hx
  | cons a rest ih =>
    intro hchain hhead x hx
    rcases List.mem_cons.mp hx with rfl | hx
    · exact hhead x rfl
    · cases rest with
      | nil => simp at hx
      | cons b rest2 =>
        have hab : g.Adj a b := (List.chain'_cons.mp hchain).1
        refine ih (List.chain'_cons.mp hchain).2 ?_ x hx
        intro s hs
        simp only [List.head?_cons, Option.some.injEq] at hs
        subst hs
        exact (hE a b hab).2

theorem split_of_not_nodup :
    ∀ p : List String, ¬ p.Nodup →
      ∃ a l1 l2 l3, p = l1 ++ a :: (l2 ++ a :: l3) := by
  intro p
  induction p with
  | nil => intro h; exact absurd List.nodup_nil h
  | cons x xs ih =>
    intro h
    by_cases hx : x ∈ xs
    · obtain ⟨s, t, rfl⟩ := List.append_of_mem hx
      exact ⟨x, [], s, t, rfl⟩
    · have hxs : ¬ xs.Nodup := fun hn => h (List.nodup_cons.mpr ⟨hx, hn⟩)
      obtain ⟨a, l1, l2, l3, rfl⟩ := ih hxs
      exact ⟨a, x :: l1, l2, l3, rfl⟩

theorem chain'_shortcut {R : String → String → Prop} {l1 l2 l3 : List String} {a : String}
    (h : List.Chain' R (l1 ++ a :: (l2 ++ a :: l3))) :
    List.Chain' R (l1 ++ a :: l3) := by
  rw [List.chain'_append] at h
  obtain ⟨h1, h2, hlink⟩ := h
  have heq : a :: (l2 ++ a :: l3) = (a :: l2) ++ (a :: l3) := by simp
  rw [heq, List.chain'_append] at h2
  obtain ⟨-, h3, -⟩ := h2
  rw [List.chain'_append]
  refine ⟨h1, h3, ?_⟩
  intro x hx y hy
  apply hlink x hx
  simpa using hy

theorem cons_getLast?_isSome (a : String) (l : List String) :
    ((a :: l).getLast?).isSome := by
  induction l generalizing a with
  | nil => rfl
  | cons b l ih => rw [List.getLast?_cons_cons]; exact ih b

theorem getLast?_append_cons (l1 : List String) (a : String) (l2 : List String) :
    (l1 ++ a :: l2).getLast? = (a :: l2).getLast? := by
  rw [List.getLast?_append]
  obtain ⟨b, hb⟩ := Option.isSome_iff_exists.mp (cons_getLast?_isSome a l2)
  rw [hb]
  rfl

theorem head?_append_cons (l1 : List String) (a : String) (l2 l3 : List String) :
    (l1 ++ a :: l2).head? = (l1 ++ a :: l3).head? := by
  cases l1 with
  | nil => rfl
  | cons x xs => rfl

/-- Any walk can be shortened to a duplicate-free walk with the same
endpoints, at most the same length, and no new vertices. -/
theorem exists_nodup_walk_aux {R : String → String → Prop} :
    ∀ (n : Nat) (p : List String), p.length ≤ n → List.Chain' R p →
      ∃ q, List.Chain' R q ∧ q.head? = p.head? ∧ q.getLast? = p.getLast? ∧
        q.Nodup ∧ q.length ≤ p.length ∧ ∀ x ∈ q, x ∈ p := by
  intro n
  induction n with
  | zero =>
    intro p hp _
    have : p = [] := List.length_eq_zero.mp (Nat.le_zero.mp hp)
    subst this
    exact ⟨[], List.chain'_nil, rfl, rfl, List.nodup_nil, Nat.le_refl 0, by simp⟩
  | succ n ih =>
    intro p hp hc
    by_cases hnd : p.Nodup
    · exact ⟨p, hc, rfl, rfl, hnd, Nat.le_refl _, fun x hx => hx⟩
    · obtain ⟨a, l1, l2, l3, rfl⟩ := split_of_not_nodup p hnd
      have hlen : (l1 ++ a :: l3).length ≤ n := by
        simp only [List.length_append, List.length_cons] at hp ⊢
        omega
      obtain ⟨q, hq, hh, hl, hnd2, hle, hsub⟩ := ih (l1 ++ a :: l3) hlen (chain'_shortcut hc)
      refine ⟨q, hq, ?_, ?_, hnd2, ?_, ?_⟩
      · rw [hh]; exact head?_append_cons l1 a l3 (l2 ++ a :: l3)
      · rw [hl, getLast?_append_cons, getLast?_append_cons]
        have heq : a :: (l2 ++ a :: l3) = (a :: l2) ++ (a :: l3) := by simp
        rw [heq, List.getLast?_append]
        obtain ⟨b, hb⟩ := Option.isSome_iff_exists.mp (cons_getLast?_isSome a l3)
        rw [hb]
        rfl
      · simp only [List.length_append, List.length_cons] at hle ⊢
        omega
      · intro x hx
        have := hsub x hx
        simp only [List.mem_append, List.mem_cons] at this ⊢
        tauto

theorem exists_nodup_walk {R : String → String → Prop} (p : List String)
    (hc : List.Chain' R p) :
    ∃ q, List.Chain' R q ∧ q.head? = p.head? ∧ q.getLast? = p.getLast? ∧
      q.Nodup ∧ q.length ≤ p.length ∧ ∀ x ∈ q, x ∈ p :=
  exists_nodup_walk_aux p.length p (Nat.le_refl _) hc

/-- Characterization of the breadth-first layers: the reversed walks with
exactly `n` edges out of `s`. -/
theorem mem_walksRev (g : Graph) (s : String) :
    ∀ (n : Nat) (p : List String),
      p ∈ walksRev g s n ↔
        p.length = n + 1 ∧ List.Chain' (fun a b => g.Adj b a) p ∧ p.getLast? = some s := by
  intro n
  induction n with
  | zero =>
    intro p
    simp only [walksRev, List.mem_singleton]
    constructor
    · rintro rfl
      exact ⟨rfl, List.chain'_singleton s, rfl⟩
    · rintro ⟨hlen, -, hlast⟩
      cases p with
      | nil => simp at hlen
      | cons x xs =>
        cases xs with
        | nil =>
          simp only [List.getLast?_singleton, Option.some.injEq] at hlast
          rw [hlast]
        | cons y ys => simp at hlen
  | succ n ih =>
    intro p
    simp only [walksRev, extendWalks, List.mem_flatMap]
    constructor
    · rintro ⟨q, hq, hp⟩
      obtain ⟨hlen, hchain, hlast⟩ := (ih q).mp hq
      cases q with
      | nil => simp at hlen
      | cons c cs =>
        simp only [List.mem_map] at hp
        obtain ⟨v, hv, rfl⟩ := hp
        rw [mem_neighbors] at hv
        refine ⟨by simp [hlen], List.chain'_cons.mpr ⟨hv, hchain⟩, ?_⟩
        rw [List.getLast?_cons_cons]
        exact hlast
    · rintro ⟨hlen, hchain, hlast⟩
      cases p with
      | nil => simp at hlen
      | cons v q =>
        cases q with
        | nil => simp at hlen
        | cons c cs =>
          refine ⟨c :: cs, (ih (c :: cs)).mpr ⟨by simpa using hlen,
            (List.chain'_cons.mp hchain).2, ?_⟩, ?_⟩
          · rw [List.getLast?_cons_cons] at hlast
            exact hlast
          · simp only [List.mem_map]
            exact ⟨v, (mem_neighbors g c v).mpr (List.chain'_cons.mp hchain).1, rfl⟩

/-! ### Layered search lemmas -/

theorem routeAux_some (g : Graph) (s t : String) :
    ∀ (fuel n : Nat) (r : List String), routeAux g s t n fuel = some r →
      ∃ m p, n ≤ m ∧ m < n + fuel ∧ p ∈ walksRev g s m ∧ p.head? = some t ∧
        r = p.reverse := by
  intro fuel
  induction fuel with
  | zero => intro n r h; simp [routeAux] at h
  | succ fuel ih =>
    intro n r h
    simp only [routeAux] at h
    cases hf : (walksRev g s n).find? (fun p => p.head? == some t) with
    | some p =>
      rw [hf] at h
      simp only [Option.some.injEq] at h
      exact ⟨n, p, Nat.le_refl n, by omega, List.mem_of_find?_eq_some hf,
        by simpa using List.find?_some hf, h.symm⟩
    | none =>
      rw [hf] at h
      obtain ⟨m, p, h1, h2, h3, h4, h5⟩ := ih (n + 1) r h
      exact ⟨m, p, by omega, by omega, h3, h4, h5⟩

theorem routeAux_complete (g : Graph) (s t : String) :
    ∀ (fuel n m : Nat) (p : List String), n ≤ m → m < n + fuel →
      p ∈ walksRev g s m → p.head? = some t →
      ∃ r, routeAux g s t n fuel = some r ∧ r.length ≤ m + 1 := by
  intro fuel
  induction fuel with
  | zero => intro n m p h1 h2 _ _; omega
  | succ fuel ih =>
    intro n m p h1 h2 hp hph
    cases hf : (walksRev g s n).find? (fun p => p.head? == some t) with
    | some q =>
      refine ⟨q.reverse, by simp only [routeAux, hf], ?_⟩
      have hq := List.mem_of_find?_eq_some hf
      have hqlen : q.length = n + 1 := ((mem_walksRev g s n q).mp hq).1
      rw [List.length_reverse, hqlen]
      omega
    | none =>
      have hm : n ≠ m := by
        rintro rfl
        have := List.find?_eq_none.mp hf p hp
        simp [hph] at this
      obtain ⟨r, hr, hlen⟩ := ih (n + 1) m p (by omega) (by omega) hp hph
      exact ⟨r, by simp only [routeAux, hf]; exact hr, hlen⟩

theorem routeAux_none (g : Graph) (s t : String) :
    ∀ (fuel n : Nat),
      (∀ m p, n ≤ m → m < n + fuel → p ∈ walksRev g s m → p.head? ≠ some t) →
      routeAux g s t n fuel = none := by
  intro fuel
  induction fuel with
  | zero => intro n _; rfl
  | succ fuel ih =>
    intro n h
    have hf : (walksRev g s n).find? (fun p => p.head? == some t) = none := by
      rw [List.find?_eq_none]
      intro p hp
      simp only [beq_iff_eq]
      exact h n p (Nat.le_refl n) (by omega) hp
    simp only [routeAux, hf]
    exact ih (n + 1) (fun m p h1 h2 hp => h m p (by omega) (by omega) hp)

theorem isWalkFrom_of_walksRev (g : Graph) (s t : String) (m : Nat) (p : List String)
    (hp : p ∈ walksRev g s m) (hph : p.head? = some t) :
    g.IsWalkFrom s t p.reverse := by
  obtain ⟨hlen, hchain, hlast⟩ := (mem_walksRev g s m p).mp hp
  refine ⟨?_, ?_, ?_⟩
  · rw [List.head?_reverse]; exact hlast
  · rw [List.getLast?_reverse]; exact hph
  · rw [List.chain'_reverse]; exact hchain

theorem walk_to_walksRev (g : Graph) (s t : String) (q : List String)
    (hw : g.IsWalkFrom s t q) :
    q.reverse ∈ walksRev g s (q.length - 1) ∧ q.reverse.head? = some t := by
  obtain ⟨hh, hl, hc⟩ := hw
  have hne : q ≠ [] := by rintro rfl; simp at hh
  have hpos : 0 < q.length := List.length_pos.mpr hne
  constructor
  · rw [mem_walksRev]
    refine ⟨by rw [List.length_reverse]; omega, ?_, ?_⟩
    · rw [List.chain'_reverse]; exact hc
    · rw [List.getLast?_reverse]; exact hh
  · rw [List.head?_reverse]; exact hl

/-! ### Planner theorems -/

theorem compute_route_eq (g : Graph) (s t : String)
    (hs : s ∈ g.nodes) (ht : t ∈ g.nodes) :
    compute_route g s t =
      match routeAux g s t 0 g.nodes.length with
      | some r => Except.ok (some r)
      | none => Except.ok none := by
  unfold compute_route nx_shortest_path
  rw [if_pos ⟨hs, ht⟩]
  cases routeAux g s t 0 g.nodes.length <;> rfl

/-- C3 — For every node `X` present in the graph, `compute_route(graph, X, X)`
returns the single-element route `[X]`. -/
theorem compute_route_self (keys : List String) (edges : List (String × String))
    (X : String) (hX : X ∈ (build_graph_with keys edges).nodes) :
    compute_route (build_graph_with keys edges) X X = Except.ok (some [X]) := by
  rw [compute_route_eq _ X X hX hX]
  have hpos : 0 < (build_graph_with keys edges).nodes.length :=
    List.length_pos.mpr (List.ne_nil_of_mem hX)
  obtain ⟨f, hf⟩ : ∃ f, (build_graph_with keys edges).nodes.length = f + 1 :=
    ⟨(build_graph_with keys edges).nodes.length - 1, by omega⟩
  rw [hf]
  have hstep : routeAux (build_graph_with keys edges) X X 0 (f + 1) = some [X] := by
    simp [routeAux, walksRev]
  rw [hstep]

set_option maxRecDepth 4000 in
/-- C3 witness: the planner on the graph `main` builds, from `A1` to `A1`,
returns exactly `[A1]`. -/
theorem compute_route_self_witness :
    compute_route nav_graph "A1" "A1" = Except.ok (some ["A1"]) :=
  compute_route_self (define_qr_locations.map (fun kv : String × String => kv.1))
    nav_edges "A1" (by decide)

/-- C1 — For every graph built by the graph builder and every pair of nodes
with a connecting walk of `k` edges, `compute_route` succeeds with a route
that is itself a walk between them of at most `k` edges (minimum edge
count). -/
theorem compute_route_min_edges (keys : List String) (edges : List (String × String))
    (s t : String) (p : List String)
    (hs : s ∈ (build_graph_with keys edges).nodes)
    (hp : (build_graph_with keys edges).IsWalkFrom s t p) :
    ∃ r, compute_route (build_graph_with keys edges) s t = Except.ok (some r) ∧
      (build_graph_with keys edges).IsWalkFrom s t r ∧ r.length ≤ p.length := by
  obtain ⟨hh, hl, hc⟩ := hp
  obtain ⟨q, hqc, hqh, hql, hqnd, hqlen, hqsub⟩ := exists_nodup_walk p hc
  have hqw : (build_graph_with keys edges).IsWalkFrom s t q :=
    ⟨by rw [hqh]; exact hh, by rw [hql]; exact hl, hqc⟩
  have hmem : ∀ x ∈ q, x ∈ (build_graph_with keys edges).nodes := by
    refine walk_mem_nodes _ (fun u v h => adj_mem_nodes keys edges h) q hqc ?_
    intro s2 hs2
    rw [hqh, hh, Option.some.injEq] at hs2
    subst hs2
    exact hs
  have hqne : q ≠ [] := by
    rintro rfl
    rw [hqh.symm] at hh
    simp at hh
  have hqpos : 0 < q.length := List.length_pos.mpr hqne
  have hcard : q.length ≤ (build_graph_with keys edges).nodes.length :=
    calc q.length = q.toFinset.card := (List.toFinset_card_of_nodup hqnd).symm
    _ ≤ (build_graph_with keys edges).nodes.toFinset.card :=
        Finset.card_le_card
          (fun x hx => List.mem_toFinset.mpr (hmem x (List.mem_toFinset.mp hx)))
    _ ≤ (build_graph_with keys edges).nodes.length := List.toFinset_card_le _
  obtain ⟨hqmem, hqhead⟩ := walk_to_walksRev _ s t q hqw
  obtain ⟨r, hr, hrlen⟩ := routeAux_complete _ s t
    (build_graph_with keys edges).nodes.length 0 (q.length - 1) q.reverse
    (by omega) (by omega) hqmem hqhead
  have ht : t ∈ (build_graph_with keys edges).nodes := by
    have htq : t ∈ q := List.mem_of_mem_getLast? (hql.trans hl)
    exact hmem t htq
  refine ⟨r, ?_, ?_, ?_⟩
  · rw [compute_route_eq _ s t hs ht, hr]
  · obtain ⟨m, pw, -, -, hpw, hpwh, rfl⟩ :=
      routeAux_some _ s t (build_graph_with keys edges).nodes.length 0 r hr
    exact isWalkFrom_of_walksRev _ s t m pw hpw hpwh
  · calc r.length ≤ (q.length - 1) + 1 := hrlen
    _ = q.length := by omega
    _ ≤ p.length := hqlen

/-- C1 witness: in the two-node graph with edge `(A1, A2)`, the walk
`[A1, A2]` (one edge) exists and the planner returns a route of at most
one edge. -/
theorem compute_route_min_edges_witness :
    ∃ r, compute_route (build_graph_with ["A1", "A2"] [("A1", "A2")]) "A1" "A2" =
        Except.ok (some r) ∧
      (build_graph_with ["A1", "A2"] [("A1", "A2")]).IsWalkFrom "A1" "A2" r ∧
      r.length ≤ (["A1", "A2"] : List String).length :=
  compute_route_min_edges ["A1", "A2"] [("A1", "A2")] "A1" "A2" ["A1", "A2"]
    (by decide) (by decide)

/-- If no walk connects `s` to `t` in a built graph (both being nodes),
the planner's search fails and `compute_route` returns Python `None`
(the caught `NetworkXNoPath` branch), never a partial route. -/
theorem compute_route_none_of_no_walk (keys : List String)
    (edges : List (String × String)) (s t : String)
    (hs : s ∈ (build_graph_with keys edges).nodes)
    (ht : t ∈ (build_graph_with keys edges).nodes)
    (hno : ¬ ∃ p, (build_graph_with keys edges).IsWalkFrom s t p) :
    compute_route (build_graph_with keys edges) s t = Except.ok none := by
  rw [compute_route_eq _ s t hs ht]
  have hnone : routeAux (build_graph_with keys edges) s t 0
      (build_graph_with keys edges).nodes.length = none := by
    refine routeAux_none _ s t _ 0 ?_
    intro m p _ _ hp hph
    exact hno ⟨p.reverse, isWalkFrom_of_walksRev _ s t m p hp hph⟩
  rw [hnone]

/-- The `NodeNotFound` exception branch: if either endpoint is not a node,
networkx raises `NodeNotFound`, which `compute_route`'s `except
nx.NetworkXNoPath` clause does not catch, so it escapes the function. -/
theorem compute_route_unknown_node (g : Graph) (s t : String)
    (h : s ∉ g.nodes ∨ t ∉ g.nodes) :
    compute_route g s t = Except.error NxError.nodeNotFound := by
  unfold compute_route nx_shortest_path
  rw [if_neg (by tauto)]

/-! ### Session theorems -/

/-- C4 — For every pair of graph nodes with no connecting path,
`compute_route` returns the no-path result (Python `None`), never a
partial route; when planning a confirmed destination yields that result,
the session emits `NavigationAborted` and moves to the terminal aborted
state; and in the aborted state every subsequent event is ignored with no
state change. -/
theorem no_path_aborts :
    (∀ (keys : List String) (edges : List (String × String)) (s t : String),
      s ∈ (build_graph_with keys edges).nodes →
      t ∈ (build_graph_with keys edges).nodes →
      (¬ ∃ p, (build_graph_with keys edges).IsWalkFrom s t p) →
      compute_route (build_graph_with keys edges) s t = Except.ok none) ∧
    (∀ (qr : List (String × String)) (g : Graph) (loc text : String),
      voice_normalize text ≠ "" →
      containsKey qr (voice_normalize text) = true →
      compute_route g loc (voice_normalize text) = Except.ok none →
      step qr g (SessionState.awaitingDestination loc) (Event.voiceResult text) =
        (SessionState.aborted loc (voice_normalize text),
         [Directive.navigationAborted])) ∧
    (∀ (qr : List (String × String)) (g : Graph) (l d : String) (e : Event),
      step qr g (SessionState.aborted l d) e = (SessionState.aborted l d, [])) := by
  refine ⟨compute_route_none_of_no_walk, ?_, ?_⟩
  · intro qr g loc text hne hk hroute
    have hcond : (voice_normalize text != "" && containsKey qr (voice_normalize text)) = true := by
      rw [Bool.and_eq_true]
      exact ⟨bne_iff_ne.mpr hne, hk⟩
    simp only [step, hcond, if_true, plan_destination, hroute]
  · intro qr g l d e
    cases e <;> rfl

/-- C4 witness: the spec's scenario 2 — two isolated catalog codes `A1`,
`Z9` with no edge: planning `A1 → Z9` yields the no-path result, the
session aborts on that destination, and a scan delivered to the aborted
session is ignored. -/
theorem no_path_aborts_witness :
    compute_route (build_graph_with ["A1", "Z9"] []) "A1" "Z9" = Except.ok none ∧
    step [("A1", "Room 1"), ("Z9", "Room 9")] (build_graph_with ["A1", "Z9"] [])
      (SessionState.awaitingDestination "A1") (Event.voiceResult "Z9") =
      (SessionState.aborted "A1" "Z9", [Directive.navigationAborted]) ∧
    step [("A1", "Room 1"), ("Z9", "Room 9")] (build_graph_with ["A1", "Z9"] [])
      (SessionState.aborted "A1" "Z9") (Event.scan "A1") =
      (SessionState.aborted "A1" "Z9", []) := by
  have hnw : ¬ ∃ p, (build_graph_with ["A1", "Z9"] []).IsWalkFrom "A1" "Z9" p := by
    rintro ⟨p, hh, hl, hc⟩
    cases p with
    | nil => simp at hh
    | cons x xs =>
      cases xs with
      | nil =>
        simp only [List.head?_cons, Option.some.injEq] at hh
        simp only [List.getLast?_singleton, Option.some.injEq] at hl
        exact absurd (hh.symm.trans hl) (by decide)
      | cons y ys =>
        have hadj := (List.chain'_cons.mp hc).1
        simp [Graph.Adj, build_graph_with] at hadj
  have h1 : compute_route (build_graph_with ["A1", "Z9"] []) "A1" "Z9" = Except.ok none :=
    no_path_aborts.1 ["A1", "Z9"] [] "A1" "Z9" (by decide) (by decide) hnw
  have hvn : voice_normalize "Z9" = "Z9" := by decide
  refine ⟨h1, ?_, no_path_aborts.2.2 _ _ "A1" "Z9" (Event.scan "A1")⟩
  have h2 := no_path_aborts.2.1 [("A1", "Room 1"), ("Z9", "Room 9")]
    (build_graph_with ["A1", "Z9"] []) "A1" "Z9" (by rw [hvn]; decide)
    (by rw [hvn]; decide) (by rw [hvn]; exact h1)
  rw [hvn] at h2
  exact h2

/-- C5 counterexample — the claim says an unknown start or destination
makes the planner fail with a handled `UnknownNode` result rather than
letting an exception propagate out; but on the graph `main` builds,
`compute_route` with the unknown start `Z9` ends in the
`Except.error NxError.nodeNotFound` outcome, which embeds networkx's
`NodeNotFound` exception escaping `compute_route` uncaught (its
`except` clause catches only `nx.NetworkXNoPath`), i.e. an unhandled
exception leaving the core. -/
theorem compute_route_unknown_node_cex :
    compute_route nav_graph "Z9" "A1" = Except.error NxError.nodeNotFound := by
  unfold compute_route nx_shortest_path
  rw [if_neg]
  rintro ⟨h, -⟩
  revert h
  decide

/-- C5 witness (amended claim): in the one-node graph, planning from the
unknown code `X7` yields the escaping `NodeNotFound` exception. -/
theorem compute_route_unknown_node_witness :
    compute_route (build_graph_with ["A1"] []) "X7" "A1" =
      Except.error NxError.nodeNotFound :=
  compute_route_unknown_node (build_graph_with ["A1"] []) "X7" "A1" (Or.inl (by decide))

/-- C6 — In `AwaitingStart`, a scan whose decoded code is a nonempty
catalog key records it as the current location, emits `StartConfirmed`
with the catalog display name, and moves to `AwaitingDestination`; a scan
that decodes to nothing, to an empty string, or to a code absent from the
catalog leaves the state unchanged and produces no directive. -/
theorem awaiting_start_scan (qr : List (String × String)) (g : Graph) (data : String) :
    (∀ c name, detect_qr_code data = some c → c ≠ "" → containsKey qr c = true →
      qr_lookup qr c = some name →
      step qr g SessionState.awaitingStart (Event.scan data) =
        (SessionState.awaitingDestination c, [Directive.startConfirmed name])) ∧
    ((detect_qr_code data = none ∨
        ∀ c, detect_qr_code data = some c → c = "" ∨ containsKey qr c = false) →
      step qr g SessionState.awaitingStart (Event.scan data) =
        (SessionState.awaitingStart, [])) := by
  constructor
  · intro c name hd hc hk hname
    have hacc : scan_accept qr data = some c := by
      simp only [scan_accept, hd]
      rw [if_pos (by rw [Bool.and_eq_true]; exact ⟨bne_iff_ne.mpr hc, hk⟩)]
    simp only [step, hacc, hname, Option.getD_some]
  · intro h
    have hacc : scan_accept qr data = none := by
      cases hd : detect_qr_code data with
      | none => simp [scan_accept, hd]
      | some c =>
        rcases h with h | h
        · rw [hd] at h; exact absurd h (by simp)
        · rcases h c hd with rfl | hfalse
          · simp [scan_accept, hd]
          · simp [scan_accept, hd, hfalse]
    simp only [step, hacc]

/-- C6 witness: scanning `A1` in `AwaitingStart` with the real catalog
confirms the start "Room 515"; scanning the non-catalog code `C9` is
ignored. -/
theorem awaiting_start_scan_witness :
    step define_qr_locations nav_graph SessionState.awaitingStart (Event.scan "A1") =
      (SessionState.awaitingDestination "A1", [Directive.startConfirmed "Room 515"]) ∧
    step define_qr_locations nav_graph SessionState.awaitingStart (Event.scan "C9") =
      (SessionState.awaitingStart, []) :=
  ⟨(awaiting_start_scan define_qr_locations nav_graph "A1").1 "A1" "Room 515"
      (by decide) (by decide) (by decide) (by decide),
   (awaiting_start_scan define_qr_locations nav_graph "C9").2
      (Or.inr (fun c hc => by
        have h9 : detect_qr_code "C9" = some "C9" := by decide
        rw [h9, Option.some.injEq] at hc
        subst hc
        exact Or.inr (by decide)))⟩

/-- C7 — In `Navigating`, scanning a catalog code: on the expected
waypoint at the last index the session emits `ArrivedAtWaypoint` then
`DestinationReached` and terminates in `Arrived`; on the expected
waypoint before the last index `routeIndex` advances by exactly one and
`NextWaypointHint` names the new waypoint; on a known but unexpected
waypoint the session emits `UnexpectedWaypoint` and nothing changes. -/
theorem navigating_scan (qr : List (String × String)) (g : Graph)
    (loc dest : String) (r : List String) (i : Nat) (data c name : String)
    (hd : detect_qr_code data = some c) (hc : c ≠ "") (hk : containsKey qr c = true)
    (hname : qr_lookup qr c = some name) (hi : i < r.length) :
    (c = r.getD i "" → i = r.length - 1 →
      step qr g (SessionState.navigating loc dest r i) (Event.scan data) =
        (SessionState.arrived loc dest r i,
         [Directive.arrivedAtWaypoint name, Directive.destinationReached])) ∧
    (∀ name2, c = r.getD i "" → i ≠ r.length - 1 →
      qr_lookup qr (r.getD (i + 1) "") = some name2 →
      step qr g (SessionState.navigating loc dest r i) (Event.scan data) =
        (SessionState.navigating loc dest r (i + 1),
         [Directive.arrivedAtWaypoint name, Directive.nextWaypointHint name2])) ∧
    (c ≠ r.getD i "" →
      step qr g (SessionState.navigating loc dest r i) (Event.scan data) =
        (SessionState.navigating loc dest r i, [Directive.unexpectedWaypoint])) := by
  have hacc : scan_accept qr data = some c := by
    simp only [scan_accept, hd]
    rw [if_pos (by rw [Bool.and_eq_true]; exact ⟨bne_iff_ne.mpr hc, hk⟩)]
  refine ⟨?_, ?_, ?_⟩
  · intro hm hl
    simp only [step, hacc]
    rw [if_pos hi, if_pos (beq_iff_eq.mpr hm), if_pos (beq_iff_eq.mpr hl),
      hname, Option.getD_some]
  · intro name2 hm hl hname2
    simp only [step, hacc]
    rw [if_pos hi, if_pos (beq_iff_eq.mpr hm), if_neg (by rw [beq_iff_eq]; exact hl),
      hname2, hname, Option.getD_some]
  · intro hm
    simp only [step, hacc]
    rw [if_pos hi, if_neg (by rw [beq_iff_eq]; exact hm)]

/-- C7 witness: the spec's scenario 3 — navigating route `[A1, B1, A3]` at
index 0, scanning `A3` (a known waypoint, but not the expected `B1`)
emits `UnexpectedWaypoint` and the index stays 0. -/
theorem navigating_scan_witness :
    step define_qr_locations nav_graph
      (SessionState.navigating "A1" "A3" ["A1", "B1", "A3"] 0) (Event.scan "A3") =
      (SessionState.navigating "A1" "A3" ["A1", "B1", "A3"] 0,
       [Directive.unexpectedWaypoint]) :=
  (navigating_scan define_qr_locations nav_graph "A1" "A3" ["A1", "B1", "A3"] 0
    "A3" "A3" "Staff Room Door 1" (by decide) (by decide) (by decide) (by decide)
    (by decide)).2.2 (by decide)

/-- C8 — A scan whose decoded code is empty, undecoded, or not a catalog
key is a no-op in every session state: the state (hence also
`routeIndex`) is unchanged, no directive is produced, and repeated
delivery of the same scan leaves the state fixed. -/
theorem unknown_scan_ignored (qr : List (String × String)) (g : Graph)
    (st : SessionState) (data : String) (h : scan_accept qr data = none) :
    step qr g st (Event.scan data) = (st, []) ∧
    ∀ n, (List.replicate n (Event.scan data)).foldl
      (fun s e => (step qr g s e).1) st = st := by
  have h1 : step qr g st (Event.scan data) = (st, []) := by
    cases st <;> simp [step, h]
  refine ⟨h1, ?_⟩
  intro n
  induction n with
  | zero => rfl
  | succ n ih =>
    rw [List.replicate_succ, List.foldl_cons, h1]
    exact ih

/-- C8 witness: in `Navigating`, scanning the non-catalog code `C9` once
(and three times) changes nothing. -/
theorem unknown_scan_ignored_witness :
    step define_qr_locations nav_graph
      (SessionState.navigating "A1" "A3" ["A1", "B1", "A3"] 0) (Event.scan "C9") =
      (SessionState.navigating "A1" "A3" ["A1", "B1", "A3"] 0, []) ∧
    (List.replicate 3 (Event.scan "C9")).foldl
      (fun s e => (step define_qr_locations nav_graph s e).1)
      (SessionState.navigating "A1" "A3" ["A1", "B1", "A3"] 0) =
      SessionState.navigating "A1" "A3" ["A1", "B1", "A3"] 0 :=
  ⟨(unknown_scan_ignored define_qr_locations nav_graph
      (SessionState.navigating "A1" "A3" ["A1", "B1", "A3"] 0) "C9" (by decide)).1,
   (unknown_scan_ignored define_qr_locations nav_graph
      (SessionState.navigating "A1" "A3" ["A1", "B1", "A3"] 0) "C9" (by decide)).2 3⟩

/-- C9 counterexample — the claim says scanned text is uppercased before
catalog matching so that a lowercase `a1` is accepted like `A1`; but
`detect_qr_code` only strips, so scanning `a1` in `AwaitingStart` is
ignored while scanning `A1` confirms the start. -/
theorem scan_not_uppercased_cex :
    detect_qr_code "a1" = some "a1" ∧
    step define_qr_locations nav_graph SessionState.awaitingStart (Event.scan "a1") =
      (SessionState.awaitingStart, []) ∧
    step define_qr_locations nav_graph SessionState.awaitingStart (Event.scan "A1") =
      (SessionState.awaitingDestination "A1", [Directive.startConfirmed "Room 515"]) :=
  ⟨by decide, by decide, by decide⟩

/-- C9 (amended) — Only the voice path case-normalizes: recognized text is
stripped and uppercased before catalog matching (so a lowercase voice
rendering of a catalog code is accepted and recorded uppercased), while a
scan is matched as its stripped text verbatim, with no case
normalization. -/
theorem normalization_amended (qr : List (String × String)) (g : Graph)
    (loc text data : String) :
    (voice_normalize text ≠ "" → containsKey qr (voice_normalize text) = true →
      ((step qr g (SessionState.awaitingDestination loc)
          (Event.voiceResult text)).1).destination? =
        some (py_upper (py_strip text))) ∧
    (∀ c, scan_accept qr data = some c →
      c = py_strip data ∧ c ≠ "" ∧ containsKey qr (py_strip data) = true) := by
  constructor
  · intro hne hk
    have hcond : (voice_normalize text != "" &&
        containsKey qr (voice_normalize text)) = true := by
      rw [Bool.and_eq_true]
      exact ⟨bne_iff_ne.mpr hne, hk⟩
    simp only [step, hcond, if_true]
    unfold plan_destination
    cases hcr : compute_route g loc (voice_normalize text) with
    | error e => simp [SessionState.destination?, voice_normalize]
    | ok o =>
      cases o with
      | none => simp [SessionState.destination?, voice_normalize]
      | some r =>
        simp only
        split <;> simp [SessionState.destination?, voice_normalize]
  · intro c hc
    cases hd : detect_qr_code data with
    | none => simp [scan_accept, hd] at hc
    | some c0 =>
      have hc0 : c0 = py_strip data := by
        unfold detect_qr_code at hd
        split at hd
        · exact absurd hd (by simp)
        · exact (Option.some.injEq _ _ ▸ hd).symm
      subst hc0
      simp only [scan_accept, hd] at hc
      cases hcond : (py_strip data != "" && containsKey qr (py_strip data)) with
      | false => rw [hcond] at hc; simp at hc
      | true =>
        rw [hcond] at hc
        simp only [if_true, Option.some.injEq] at hc
        subst hc
        rw [Bool.and_eq_true] at hcond
        exact ⟨rfl, bne_iff_ne.mp hcond.1, hcond.2⟩

/-- C9 witness: the lowercase voice utterance `a2` is accepted as
destination `A2` (its stripped, uppercased form). -/
theorem normalization_amended_witness :
    ((step define_qr_locations nav_graph (SessionState.awaitingDestination "A1")
        (Event.voiceResult "a2")).1).destination? =
      some (py_upper (py_strip "a2")) :=
  (normalization_amended define_qr_locations nav_graph "A1" "a2" "").1
    (by decide) (by decide)

/-! ### Frame and index invariants (C10) -/

theorem step_location (qr : List (String × String)) (g : Graph)
    (st : SessionState) (e : Event) :
    ∀ l, st.location? = some l → ((step qr g st e).1).location? = some l := by
  intro l h
  cases st with
  | awaitingStart => simp [SessionState.location?] at h
  | awaitingDestination loc =>
    simp only [SessionState.location?, Option.some.injEq] at h
    subst h
    cases e with
    | voiceResult text =>
      simp only [step]
      split
      · unfold plan_destination
        split <;> (try split) <;> simp [SessionState.location?]
      · simp [SessionState.location?]
    | scan data => simp [step, SessionState.location?]
    | voiceFailure => simp [step, SessionState.location?]
  | navigating loc dest r i =>
    simp only [SessionState.location?, Option.some.injEq] at h
    subst h
    cases e with
    | scan data =>
      cases hacc : scan_accept qr data with
      | none => simp [step, hacc, SessionState.location?]
      | some c =>
        simp only [step, hacc]
        (repeat' split) <;> simp [SessionState.location?]
    | voiceResult t => simp [step, SessionState.location?]
    | voiceFailure => simp [step, SessionState.location?]
  | arrived l0 d r i =>
    cases e <;> simpa [step, SessionState.location?] using h
  | aborted l0 d =>
    cases e <;> simpa [step, SessionState.location?] using h
  | crashed l0 d =>
    cases e <;> simpa [step, SessionState.location?] using h

theorem step_destination (qr : List (String × String)) (g : Graph)
    (st : SessionState) (e : Event) :
    ∀ d, st.destination? = some d → ((step qr g st e).1).destination? = some d := by
  intro d h
  cases st with
  | awaitingStart => simp [SessionState.destination?] at h
  | awaitingDestination loc => simp [SessionState.destination?] at h
  | navigating loc dest r i =>
    simp only [SessionState.destination?, Option.some.injEq] at h
    subst h
    cases e with
    | scan data =>
      cases hacc : scan_accept qr data with
      | none => simp [step, hacc, SessionState.destination?]
      | some c =>
        simp only [step, hacc]
        (repeat' split) <;> simp [SessionState.destination?]
    | voiceResult t => simp [step, SessionState.destination?]
    | voiceFailure => simp [step, SessionState.destination?]
  | arrived l0 d0 r i =>
    cases e <;> simpa [step, SessionState.destination?] using h
  | aborted l0 d0 =>
    cases e <;> simpa [step, SessionState.destination?] using h
  | crashed l0 d0 =>
    cases e <;> simpa [step, SessionState.destination?] using h

theorem step_route (qr : List (String × String)) (g : Graph)
    (st : SessionState) (e : Event) :
    ∀ r, st.route? = some r → ((step qr g st e).1).route? = some r ∨
      ∃ l d, (step qr g st e).1 = SessionState.crashed l d := by
  intro r h
  cases st with
  | awaitingStart => simp [SessionState.route?] at h
  | awaitingDestination loc => simp [SessionState.route?] at h
  | navigating loc dest r0 i =>
    simp only [SessionState.route?, Option.some.injEq] at h
    subst h
    cases e with
    | scan data =>
      cases hacc : scan_accept qr data with
      | none => simp [step, hacc, SessionState.route?]
      | some c =>
        simp only [step, hacc]
        (repeat' split) <;>
          first
            | exact Or.inl rfl
            | exact Or.inr ⟨loc, dest, rfl⟩
    | voiceResult t => exact Or.inl rfl
    | voiceFailure => exact Or.inl rfl
  | arrived l0 d0 r0 i =>
    cases e <;> exact Or.inl (by simpa [step, SessionState.route?] using h)
  | aborted l0 d0 => simp [SessionState.route?] at h
  | crashed l0 d0 => simp [SessionState.route?] at h

theorem step_navigating (qr : List (String × String)) (g : Graph)
    (l d : String) (r : List String) (i : Nat) (e : Event) :
    ((step qr g (SessionState.navigating l d r i) e).1 =
        SessionState.navigating l d r i ∨
      (step qr g (SessionState.navigating l d r i) e).1 =
        SessionState.navigating l d r (i + 1) ∨
      (step qr g (SessionState.navigating l d r i) e).1 =
        SessionState.arrived l d r i ∨
      (step qr g (SessionState.navigating l d r i) e).1 =
        SessionState.crashed l d) ∧
    ((step qr g (SessionState.navigating l d r i) e).1 =
        SessionState.navigating l d r (i + 1) →
      ∃ data, e = Event.scan data ∧ scan_accept qr data = some (r.getD i "") ∧
        i < r.length) := by
  cases e with
  | voiceResult t =>
    refine ⟨Or.inl rfl, ?_⟩
    intro h
    simp only [step, SessionState.navigating.injEq] at h
    omega
  | voiceFailure =>
    refine ⟨Or.inl rfl, ?_⟩
    intro h
    simp only [step, SessionState.navigating.injEq] at h
    omega
  | scan data =>
    cases hacc : scan_accept qr data with
    | none =>
      refine ⟨Or.inl (by simp [step, hacc]), ?_⟩
      intro h
      simp only [step, hacc, SessionState.navigating.injEq] at h
      omega
    | some c =>
      simp only [step, hacc]
      by_cases hi : i < r.length
      · rw [if_pos hi]
        by_cases hm : (c == r.getD i "") = true
        · rw [if_pos hm]
          by_cases hl : (i == r.length - 1) = true
          · rw [if_pos hl]
            refine ⟨Or.inr (Or.inr (Or.inl rfl)), ?_⟩
            intro h
            simp at h
          · rw [if_neg hl]
            cases hlook : qr_lookup qr (r.getD (i + 1) "") with
            | some nm =>
              refine ⟨Or.inr (Or.inl rfl), ?_⟩
              intro _
              exact ⟨data, rfl, by rw [hacc, beq_iff_eq.mp hm], hi⟩
            | none =>
              refine ⟨Or.inr (Or.inr (Or.inr rfl)), ?_⟩
              intro h
              simp at h
        · rw [if_neg hm]
          refine ⟨Or.inl rfl, ?_⟩
          intro h
          simp only [SessionState.navigating.injEq] at h
          omega
      · rw [if_neg hi]
        refine ⟨Or.inr (Or.inr (Or.inr rfl)), ?_⟩
        intro h
        simp at h

theorem idxOk_step (qr : List (String × String)) (g : Graph)
    (st : SessionState) (e : Event) (h : idxOk st) :
    idxOk ((step qr g st e).1) := by
  cases st with
  | awaitingStart =>
    cases e with
    | scan data => cases hacc : scan_accept qr data <;> simp [step, hacc, idxOk]
    | voiceResult t => simp [step, idxOk]
    | voiceFailure => simp [step, idxOk]
  | awaitingDestination loc =>
    cases e with
    | voiceResult text =>
      simp only [step]
      split
      · unfold plan_destination
        cases hcr : compute_route g loc (voice_normalize text) with
        | error e2 => simp [idxOk]
        | ok o =>
          cases o with
          | none => simp [idxOk]
          | some r =>
            simp only
            split
            · simp [idxOk]
            · next hne =>
              simp only [idxOk]
              have : r ≠ [] := by
                intro hr
                subst hr
                exact hne rfl
              exact List.length_pos.mpr this
      · simp [idxOk]
    | scan data => simp [step, idxOk]
    | voiceFailure => simp [step, idxOk]
  | navigating loc dest r i =>
    cases e with
    | scan data =>
      cases hacc : scan_accept qr data with
      | none => simpa [step, hacc, idxOk] using h
      | some c =>
        simp only [step, hacc]
        by_cases hi : i < r.length
        · rw [if_pos hi]
          by_cases hm : (c == r.getD i "") = true
          · rw [if_pos hm]
            by_cases hl : (i == r.length - 1) = true
            · rw [if_pos hl]
              simpa [idxOk] using hi
            · rw [if_neg hl]
              cases hlook : qr_lookup qr (r.getD (i + 1) "") with
              | some nm =>
                simp only [idxOk]
                have hne : i ≠ r.length - 1 := by
                  intro heq
                  exact hl (beq_iff_eq.mpr heq)
                omega
              | none => simp [idxOk]
          · rw [if_neg hm]
            simpa [idxOk] using hi
        · rw [if_neg hi]
          simp [idxOk]
    | voiceResult t => simpa [step, idxOk] using h
    | voiceFailure => simpa [step, idxOk] using h
  | arrived l0 d0 r i => cases e <;> simpa [step, idxOk] using h
  | aborted l0 d0 => cases e <;> simp [step, idxOk]
  | crashed l0 d0 => cases e <;> simp [step, idxOk]

theorem idxOk_run (qr : List (String × String)) (g : Graph) :
    ∀ (es : List Event) (st : SessionState), idxOk st →
      idxOk (es.foldl (fun s e => (step qr g s e).1) st)
  | [], _, h => h
  | e :: es, st, h =>
    idxOk_run qr g es ((step qr g st e).1) (idxOk_step qr g st e h)

/-- C10 — Frame invariant of the session: once set, `currentLocation`,
`destination` and the planned route are never rewritten by a step (the
route can only disappear by the process dying); from `Navigating`,
a step either leaves the state unchanged, advances `routeIndex` by
exactly one (and only on a scan of `route[routeIndex]`), arrives, or
crashes — so `routeIndex` is monotonically non-decreasing; and in every
session reachable from the start, `routeIndex` is a valid index into the
route. -/
theorem session_frame_invariant (qr : List (String × String)) (g : Graph)
    (st : SessionState) (e : Event) :
    (∀ l, st.location? = some l → ((step qr g st e).1).location? = some l) ∧
    (∀ d, st.destination? = some d → ((step qr g st e).1).destination? = some d) ∧
    (∀ r, st.route? = some r → ((step qr g st e).1).route? = some r ∨
      ∃ l d, (step qr g st e).1 = SessionState.crashed l d) ∧
    (∀ l d r i, st = SessionState.navigating l d r i →
      ((step qr g st e).1 = SessionState.navigating l d r i ∨
        (step qr g st e).1 = SessionState.navigating l d r (i + 1) ∨
        (step qr g st e).1 = SessionState.arrived l d r i ∨
        (step qr g st e).1 = SessionState.crashed l d) ∧
      ((step qr g st e).1 = SessionState.navigating l d r (i + 1) →
        ∃ data, e = Event.scan data ∧ scan_accept qr data = some (r.getD i "") ∧
          i < r.length)) ∧
    (∀ es, idxOk (runEvents qr g es)) := by
  refine ⟨step_location qr g st e, step_destination qr g st e, step_route qr g st e,
    ?_, ?_⟩
  · rintro l d r i rfl
    exact step_navigating qr g l d r i e
  · intro es
    exact idxOk_run qr g es SessionState.awaitingStart trivial

/-- C10 witness: one concrete step — while navigating `[A1, B1, A3]` at
index 0, scanning the unexpected `A3` keeps location, destination, route
and index unchanged; and the empty event list leaves a valid index. -/
theorem session_frame_invariant_witness :
    ((step define_qr_locations nav_graph
        (SessionState.navigating "A1" "A3" ["A1", "B1", "A3"] 0)
        (Event.scan "A3")).1).location? = some "A1" ∧
    ((step define_qr_locations nav_graph
        (SessionState.navigating "A1" "A3" ["A1", "B1", "A3"] 0)
        (Event.scan "A3")).1).destination? = some "A3" ∧
    idxOk (runEvents define_qr_locations nav_graph []) :=
  ⟨(session_frame_invariant define_qr_locations nav_graph
      (SessionState.navigating "A1" "A3" ["A1", "B1", "A3"] 0) (Event.scan "A3")).1
      "A1" (by decide),
   (session_frame_invariant define_qr_locations nav_graph
      (SessionState.navigating "A1" "A3" ["A1", "B1", "A3"] 0) (Event.scan "A3")).2.1
      "A3" (by decide),
   (session_frame_invariant define_qr_locations nav_graph
      (SessionState.navigating "A1" "A3" ["A1", "B1", "A3"] 0) (Event.scan "A3")).2.2.2.2
      []⟩

end GPSNav
